import Mathlib

/-!
Verification of the filter pipeline and aggregation logic of the water-assets
dashboard (`water_assets_dashboard.py`).

The dashboard holds an in-memory table of asset records.  We embed one row as
an `AssetRecord`: the categorical columns are strings, `last_survey_date` is a
`Nat` encoding a calendar date as `monthIndex * 100 + dayOfMonth` (days are
below 100, so `Nat` order coincides with calendar order and consecutive month
indices are consecutive calendar months), and the numeric columns `area_ha`,
`ndvi`, `ndwi` are `Option ℚ`, `none` standing for a missing (NaN) value.

The sidebar state (selected state, district, asset types, statuses, date
range) is embedded as `FilterCriteria`; the script's sequential filter block
(lines 58-78 of the source) is `filtered_df`; the KPI aggregates, the
`value_counts` calls, the `crosstab` and the monthly `resample` are embedded
below, each following the pandas semantics of the corresponding call.
-/

structure AssetRecord where
  asset_name : String
  state : String
  district : String
  asset_type : String
  status : String
  last_survey_date : Nat
  area_ha : Option ℚ
  ndvi : Option ℚ
  ndwi : Option ℚ
deriving DecidableEq, Repr

structure FilterCriteria where
  selected_state : String
  selected_district : String
  selected_asset_type : List String
  selected_status : List String
  date_range : List Nat
deriving DecidableEq, Repr

/-- Embedding of the filter block of the script:
`filtered_df = df.copy()`, then one conditional filter per criterion
(state equality, district equality, asset-type membership, status membership),
each skipped when the selection is the `"All"` sentinel (for the multiselects,
when `"All"` is among the selected values), and finally the date-range filter,
applied only when the range has exactly two entries, with both bounds
inclusive. -/
def filtered_df (df : List AssetRecord) (c : FilterCriteria) : List AssetRecord :=
  let d1 := if c.selected_state = "All" then df
            else df.filter (fun r => r.state == c.selected_state)
  let d2 := if c.selected_district = "All" then d1
            else d1.filter (fun r => r.district == c.selected_district)
  let d3 := if "All" ∈ c.selected_asset_type then d2
            else d2.filter (fun r => c.selected_asset_type.contains r.asset_type)
  let d4 := if "All" ∈ c.selected_status then d3
            else d3.filter (fun r => c.selected_status.contains r.status)
  match c.date_range with
  | [s, e] => d4.filter (fun r => decide (s ≤ r.last_survey_date) && decide (r.last_survey_date ≤ e))
  | _ => d4

/-- The per-record predicate the spec describes: the conjunction of all
active criteria, where a criterion at its `"All"` sentinel (or a date range
without exactly two bounds) contributes no conjunct. -/
def matchesCriteria (c : FilterCriteria) (r : AssetRecord) : Bool :=
  (decide (c.selected_state = "All") || r.state == c.selected_state) &&
  ((decide (c.selected_district = "All") || r.district == c.selected_district) &&
  ((decide ("All" ∈ c.selected_asset_type) || c.selected_asset_type.contains r.asset_type) &&
  ((decide ("All" ∈ c.selected_status) || c.selected_status.contains r.status) &&
  (match c.date_range with
   | [s, e] => decide (s ≤ r.last_survey_date) && decide (r.last_survey_date ≤ e)
   | _ => true))))

theorem if_skip_filter {α : Type} (cond : Prop) [Decidable cond] (p : α → Bool) (l : List α) :
    (if cond then l else l.filter p) = l.filter (fun a => decide cond || p a) := by
  by_cases h : cond <;> simp [h]

theorem filtered_df_eq_filter (df : List AssetRecord) (c : FilterCriteria) :
    filtered_df df c = df.filter (matchesCriteria c) := by
  rcases c with ⟨ss, sd, sa, st, dr⟩
  simp only [filtered_df, matchesCriteria]
  rw [if_skip_filter, if_skip_filter, if_skip_filter, if_skip_filter]
  rcases dr with _ | ⟨s, _ | ⟨e, _ | ⟨x, rest⟩⟩⟩ <;>
    simp only [List.filter_filter] <;>
    refine List.filter_congr (fun r _ => ?_) <;>
    cases h1 : (decide (ss = "All") || r.state == ss) <;>
    cases h2 : (decide (sd = "All") || r.district == sd) <;>
    cases h3 : (decide ("All" ∈ sa) || sa.contains r.asset_type) <;>
    cases h4 : (decide ("All" ∈ st) || st.contains r.status) <;>
    simp_all [matchesCriteria] <;>
    rcases h1 with h1 | h1 <;> rcases h2 with h2 | h2 <;> rcases h3 with h3 | h3 <;>
    rcases h4 with h4 | h4 <;> simp [h1, h2, h3, h4]

/-- The three-record dataset of the specification's test scenario.
Dates use month index 0 for January 2023 and 1 for February 2023, so
2023-01-15 is 15, 2023-02-10 is 110 and 2023-01-20 is 20. -/
def wellA : AssetRecord :=
  ⟨"wA", "A", "X", "well", "active", 15, some 2, some (1/2), some (1/10)⟩

def pondA : AssetRecord :=
  ⟨"pA", "A", "Y", "pond", "inactive", 110, some 3, some (3/5), some (1/5)⟩

def wellB : AssetRecord :=
  ⟨"wB", "B", "Z", "well", "active", 20, some 1, none, some (3/10)⟩

def specDataset : List AssetRecord := [wellA, pondA, wellB]

/-- Minimum of a list of naturals, matching the pandas column minimum on a
nonempty column (0 on the empty column, where pandas would give NaT). -/
def listMin : List Nat → Nat
  | [] => 0
  | x :: xs => xs.foldl min x

/-- Maximum of a list of naturals, matching the pandas column maximum. -/
def listMax : List Nat → Nat
  | [] => 0
  | x :: xs => xs.foldl max x

/-- `df['last_survey_date'].min()` of the script (line 48). -/
def min_date (df : List AssetRecord) : Nat :=
  listMin (df.map (fun r => r.last_survey_date))

/-- `df['last_survey_date'].max()` of the script (line 49). -/
def max_date (df : List AssetRecord) : Nat :=
  listMax (df.map (fun r => r.last_survey_date))

theorem foldl_min_le_init : ∀ (l : List Nat) (a : Nat), l.foldl min a ≤ a
  | [], a => le_refl a
  | x :: xs, a => le_trans (foldl_min_le_init xs (min a x)) (min_le_left a x)

theorem foldl_min_le : ∀ (l : List Nat) (a x : Nat), x ∈ l → l.foldl min a ≤ x
  | y :: xs, a, x, h => by
    rcases List.mem_cons.mp h with h | h
    · subst h
      exact le_trans (foldl_min_le_init xs (min a x)) (min_le_right a x)
    · exact foldl_min_le xs (min a y) x h

theorem le_foldl_max_init : ∀ (l : List Nat) (a : Nat), a ≤ l.foldl max a
  | [], a => le_refl a
  | x :: xs, a => le_trans (le_max_left a x) (le_foldl_max_init xs (max a x))

theorem le_foldl_max : ∀ (l : List Nat) (a x : Nat), x ∈ l → x ≤ l.foldl max a
  | y :: xs, a, x, h => by
    rcases List.mem_cons.mp h with h | h
    · subst h
      exact le_trans (le_max_right a x) (le_foldl_max_init xs (max a x))
    · exact le_foldl_max xs (max a y) x h

theorem listMin_le {l : List Nat} {x : Nat} (hx : x ∈ l) : listMin l ≤ x := by
  rcases l with _ | ⟨y, xs⟩
  · cases hx
  · rcases List.mem_cons.mp hx with h | h
    · subst h
      exact foldl_min_le_init xs x
    · exact foldl_min_le xs y x h

theorem le_listMax {l : List Nat} {x : Nat} (hx : x ∈ l) : x ≤ listMax l := by
  rcases l with _ | ⟨y, xs⟩
  · cases hx
  · rcases List.mem_cons.mp hx with h | h
    · subst h
      exact le_foldl_max_init xs x
    · exact le_foldl_max xs y x h

/-- C1: for every dataset and criteria the filter pipeline returns exactly the
records satisfying the conjunction of the active criteria (state equality,
district equality, asset-type membership, status membership, inclusive date
range), and criteria at the `"All"` sentinel contribute no predicate at all:
fully sentinel criteria accept every record, whatever its field values, so no
predicate ever compares data against the literal string `"All"`. -/
theorem C1_filter_is_conjunction_of_active_criteria :
    (∀ (df : List AssetRecord) (c : FilterCriteria),
        filtered_df df c = df.filter (matchesCriteria c)) ∧
    (∀ (c : FilterCriteria) (r : AssetRecord),
        c.selected_state = "All" → c.selected_district = "All" →
        "All" ∈ c.selected_asset_type → "All" ∈ c.selected_status →
        c.date_range.length ≠ 2 → matchesCriteria c r = true) := by
  refine ⟨filtered_df_eq_filter, ?_⟩
  intro c r h1 h2 h3 h4 h5
  rcases c with ⟨ss, sd, sa, st, dr⟩
  simp only at h1 h2 h3 h4 h5
  subst h1; subst h2
  rcases dr with _ | ⟨s, _ | ⟨e, _ | ⟨x, rest⟩⟩⟩ <;> simp_all [matchesCriteria]

/-- Witness for C1 at the scenario dataset and a concrete criteria value. -/
theorem C1_filter_is_conjunction_of_active_criteria_witness :
    filtered_df specDataset ⟨"A", "All", ["All"], ["All"], []⟩ =
      specDataset.filter (matchesCriteria ⟨"A", "All", ["All"], ["All"], []⟩) ∧
    matchesCriteria ⟨"All", "All", ["All"], ["All"], []⟩ wellA = true :=
  ⟨C1_filter_is_conjunction_of_active_criteria.1 specDataset _,
   C1_filter_is_conjunction_of_active_criteria.2 ⟨"All", "All", ["All"], ["All"], []⟩ wellA
     rfl rfl (by decide) (by decide) (by decide)⟩

/-- C2: with every criterion unconstrained (state and district at `"All"`,
both multiselects containing `"All"`, and the date range spanning the
dataset's minimum to maximum `last_survey_date`) the filter pipeline returns
the dataset unchanged. -/
theorem C2_unconstrained_filter_is_identity
    (df : List AssetRecord) (sa st : List String)
    (ha : "All" ∈ sa) (hs : "All" ∈ st) :
    filtered_df df ⟨"All", "All", sa, st, [min_date df, max_date df]⟩ = df := by
  rw [filtered_df_eq_filter]
  apply List.filter_eq_self.mpr
  intro r hr
  have hmin : min_date df ≤ r.last_survey_date :=
    listMin_le (List.mem_map_of_mem (fun r => r.last_survey_date) hr)
  have hmax : r.last_survey_date ≤ max_date df :=
    le_listMax (List.mem_map_of_mem (fun r => r.last_survey_date) hr)
  simp [matchesCriteria, ha, hs, hmin, hmax]

/-- Witness for C2 at the scenario dataset. -/
theorem C2_unconstrained_filter_is_identity_witness :
    filtered_df specDataset
      ⟨"All", "All", ["All"], ["All"], [min_date specDataset, max_date specDataset]⟩ =
      specDataset :=
  C2_unconstrained_filter_is_identity specDataset ["All"] ["All"] (by decide) (by decide)

/-- C3: the filter pipeline is idempotent: filtering an already filtered
dataset with the same criteria changes nothing. -/
theorem C3_filter_idempotent (df : List AssetRecord) (c : FilterCriteria) :
    filtered_df (filtered_df df c) c = filtered_df df c := by
  simp only [filtered_df_eq_filter]
  rw [List.filter_filter]
  exact List.filter_congr (fun a _ => by cases h : matchesCriteria c a <;> simp [h])

/-- Helper of `uniqueKeys`: the input values not yet seen, keeping first
occurrences in order. -/
def uniqueAux : List String → List String → List String
  | [], _ => []
  | x :: xs, seen =>
    if x ∈ seen then uniqueAux xs seen else x :: uniqueAux xs (x :: seen)

/-- Distinct values of a list in order of first appearance: the key order of
`Series.unique()` and of the pandas value-counting hash table. -/
def uniqueKeys (l : List String) : List String := uniqueAux l []

theorem mem_uniqueAux (l : List String) :
    ∀ (seen : List String) (x : String), x ∈ uniqueAux l seen ↔ x ∈ l ∧ x ∉ seen := by
  induction l with
  | nil => intro seen x; simp [uniqueAux]
  | cons y ys ih =>
    intro seen x
    rw [uniqueAux]
    by_cases hy : y ∈ seen
    · rw [if_pos hy, ih]
      constructor
      · rintro ⟨h1, h2⟩
        exact ⟨List.mem_cons_of_mem y h1, h2⟩
      · rintro ⟨h1, h2⟩
        rcases List.mem_cons.mp h1 with h | h
        · exact absurd (h ▸ hy) h2
        · exact ⟨h, h2⟩
    · rw [if_neg hy]
      simp only [List.mem_cons, ih, List.mem_cons]
      by_cases hxy : x = y <;> simp [hxy, hy]

theorem nodup_uniqueAux (l : List String) : ∀ seen : List String, (uniqueAux l seen).Nodup := by
  induction l with
  | nil => intro seen; simp [uniqueAux]
  | cons y ys ih =>
    intro seen
    rw [uniqueAux]
    by_cases hy : y ∈ seen
    · rw [if_pos hy]
      exact ih seen
    · rw [if_neg hy]
      refine List.nodup_cons.mpr ⟨fun hc => ?_, ih _⟩
      exact ((mem_uniqueAux ys (y :: seen) y).mp hc).2 (List.mem_cons_self y seen)

theorem mem_uniqueKeys (l : List String) (x : String) : x ∈ uniqueKeys l ↔ x ∈ l := by
  rw [uniqueKeys, mem_uniqueAux]
  simp

theorem nodup_uniqueKeys (l : List String) : (uniqueKeys l).Nodup :=
  nodup_uniqueAux l []

/-- Lexicographic comparison of character lists, by code point. -/
def charListLe : List Char → List Char → Bool
  | [], _ => true
  | _ :: _, [] => false
  | a :: as, b :: bs => if a < b then true else if b < a then false else charListLe as bs

/-- Lexicographic string comparison by code point: the order the Python
built-in `sorted` applies to strings. -/
def strLe (a b : String) : Bool := charListLe a.data b.data

/-- Insert a string into a list, before the first element not below it. -/
def insertAsc (s : String) : List String → List String
  | [] => [s]
  | t :: ts => if strLe s t then s :: t :: ts else t :: insertAsc s ts

/-- Ascending sort of a list of strings (insertion sort): the Python built-in
`sorted` and the label ordering pandas gives `crosstab` rows and columns. -/
def sortStr : List String → List String
  | [] => []
  | s :: ss => insertAsc s (sortStr ss)

theorem insertAsc_perm (s : String) : ∀ l : List String, (insertAsc s l).Perm (s :: l)
  | [] => List.Perm.refl _
  | t :: ts => by
    rw [insertAsc]
    by_cases h : strLe s t = true
    · rw [if_pos h]
    · rw [if_neg h]
      exact ((insertAsc_perm s ts).cons t).trans (List.Perm.swap s t ts)

theorem sortStr_perm : ∀ l : List String, (sortStr l).Perm l
  | [] => List.Perm.refl _
  | s :: ss => (insertAsc_perm s (sortStr ss)).trans ((sortStr_perm ss).cons s)

theorem mem_sortStr {l : List String} {x : String} : x ∈ sortStr l ↔ x ∈ l :=
  (sortStr_perm l).mem_iff

theorem nodup_sortStr {l : List String} (h : l.Nodup) : (sortStr l).Nodup :=
  (sortStr_perm l).nodup_iff.mpr h

/-- Insert a `(value, count)` pair into a list, before the first pair whose
count is not larger.  `sortByCountDesc` sorts the tail first and inserts the
head last, so the head lands before every tied pair that followed it in the
input: equal counts keep their relative order. -/
def insertDesc (p : String × Nat) : List (String × Nat) → List (String × Nat)
  | [] => [p]
  | q :: qs => if p.2 < q.2 then q :: insertDesc p qs else p :: q :: qs

/-- Stable descending sort by count: the `sort_values(ascending=False)` step
inside pandas `value_counts`. -/
def sortByCountDesc : List (String × Nat) → List (String × Nat)
  | [] => []
  | p :: ps => insertDesc p (sortByCountDesc ps)

theorem insertDesc_perm (p : String × Nat) :
    ∀ l : List (String × Nat), (insertDesc p l).Perm (p :: l)
  | [] => List.Perm.refl _
  | q :: qs => by
    rw [insertDesc]
    by_cases h : p.2 < q.2
    · rw [if_pos h]
      exact ((insertDesc_perm p qs).cons q).trans (List.Perm.swap p q qs)
    · rw [if_neg h]

theorem sortByCountDesc_perm : ∀ l : List (String × Nat), (sortByCountDesc l).Perm l
  | [] => List.Perm.refl _
  | p :: ps => (insertDesc_perm p (sortByCountDesc ps)).trans ((sortByCountDesc_perm ps).cons p)

theorem mem_insertDesc {p x : String × Nat} {l : List (String × Nat)} :
    x ∈ insertDesc p l ↔ x = p ∨ x ∈ l := by
  rw [(insertDesc_perm p l).mem_iff, List.mem_cons]

theorem pairwise_insertDesc (p : String × Nat) :
    ∀ {l : List (String × Nat)}, l.Pairwise (fun a b => b.2 ≤ a.2) →
      (insertDesc p l).Pairwise (fun a b => b.2 ≤ a.2) := by
  intro l
  induction l with
  | nil => intro _; simp [insertDesc]
  | cons q qs ih =>
    intro h
    rcases List.pairwise_cons.mp h with ⟨hq, hqs⟩
    rw [insertDesc]
    by_cases hlt : p.2 < q.2
    · rw [if_pos hlt]
      refine List.pairwise_cons.mpr ⟨?_, ih hqs⟩
      intro x hx
      rcases mem_insertDesc.mp hx with hx | hx
      · exact hx ▸ le_of_lt hlt
      · exact hq x hx
    · rw [if_neg hlt]
      refine List.pairwise_cons.mpr ⟨?_, h⟩
      intro x hx
      rcases List.mem_cons.mp hx with hx | hx
      · exact hx ▸ Nat.le_of_not_lt hlt
      · exact le_trans (hq x hx) (Nat.le_of_not_lt hlt)

theorem pairwise_sortByCountDesc :
    ∀ l : List (String × Nat), (sortByCountDesc l).Pairwise (fun a b => b.2 ≤ a.2)
  | [] => List.Pairwise.nil
  | p :: ps => pairwise_insertDesc p (pairwise_sortByCountDesc ps)

theorem filter_insertDesc (p : String × Nat) (c : Nat) :
    ∀ l : List (String × Nat),
      (insertDesc p l).filter (fun q => q.2 == c)
        = if p.2 = c then p :: l.filter (fun q => q.2 == c)
          else l.filter (fun q => q.2 == c)
  | [] => by
    rw [insertDesc]
    by_cases hpc : p.2 = c <;> simp [hpc]
  | q :: qs => by
    rw [insertDesc]
    by_cases hlt : p.2 < q.2
    · rw [if_pos hlt]
      by_cases hpc : p.2 = c
      · have hqc : ¬(q.2 = c) := by omega
        simp [List.filter_cons, hqc, hpc, filter_insertDesc p c qs]
      · simp [List.filter_cons, filter_insertDesc p c qs, hpc]
    · rw [if_neg hlt]
      by_cases hpc : p.2 = c <;> simp [List.filter_cons, hpc]

/-- The sort inside `value_counts` is stable: restricted to any one count
value, the sorted list is the unsorted list, so tied counts keep their
original relative order. -/
theorem filter_sortByCountDesc (c : Nat) :
    ∀ l : List (String × Nat),
      (sortByCountDesc l).filter (fun q => q.2 == c) = l.filter (fun q => q.2 == c)
  | [] => rfl
  | p :: ps => by
    rw [sortByCountDesc, filter_insertDesc, filter_sortByCountDesc c ps]
    by_cases hpc : p.2 = c <;> simp [List.filter_cons, hpc]

/-- pandas `Series.value_counts()`: one `(value, count)` pair per distinct
value, sorted by count descending.  Keys are collected in order of first
appearance and the sort is stable, so tied counts keep that order; pandas
promises no particular order among tied counts. -/
def value_counts (l : List String) : List (String × Nat) :=
  sortByCountDesc ((uniqueKeys l).map (fun k => (k, l.count k)))

/-- `filtered_df[col].value_counts()` for a column selector (lines 111, 119,
151 of the script, with `col` one of `asset_type`, `status`, `state`). -/
def group_counts (fd : List AssetRecord) (field : AssetRecord → String) : List (String × Nat) :=
  value_counts (fd.map field)

/-- `filtered_df[col].value_counts().head(n)` (line 153 uses `head(10)`). -/
def top_n_by_group (fd : List AssetRecord) (field : AssetRecord → String) (n : Nat) :
    List (String × Nat) :=
  (group_counts fd field).take n

/-- Row labels of `pd.crosstab(filtered_df['state'], filtered_df['asset_type'])`:
the sorted distinct states of the filtered dataset. -/
def ct_rows (fd : List AssetRecord) : List String :=
  sortStr (uniqueKeys (fd.map (fun r => r.state)))

/-- Column labels of the same crosstab: the sorted distinct asset types. -/
def ct_cols (fd : List AssetRecord) : List String :=
  sortStr (uniqueKeys (fd.map (fun r => r.asset_type)))

/-- `pd.crosstab(filtered_df['state'], filtered_df['asset_type'])` (line 160):
for every observed state a row holding, for every observed asset type, the
number of records with that state and that asset type — 0, not missing, when
the combination does not occur. -/
def cross_tab (fd : List AssetRecord) : List (String × List (String × Nat)) :=
  (ct_rows fd).map (fun s => (s, (ct_cols fd).map (fun t =>
    (t, fd.countP (fun r => r.state == s && r.asset_type == t)))))

/-- `filtered_df['area_ha'].sum()` (line 95): pandas sums a column skipping
missing values, so a missing `area_ha` contributes nothing. -/
def sum_area (fd : List AssetRecord) : ℚ :=
  (fd.filterMap (fun r => r.area_ha)).sum

/-- `filtered_df['ndvi'].mean()` (line 98): the mean of the non-missing
values; NaN — embedded as `none` — when every value is missing. -/
def avg_ndvi (fd : List AssetRecord) : Option ℚ :=
  let vs := fd.filterMap (fun r => r.ndvi)
  if vs.length = 0 then none else some (vs.sum / (vs.length : ℚ))

/-- `filtered_df['ndwi'].mean()` (line 102), as for `avg_ndvi`. -/
def avg_ndwi (fd : List AssetRecord) : Option ℚ :=
  let vs := fd.filterMap (fun r => r.ndwi)
  if vs.length = 0 then none else some (vs.sum / (vs.length : ℚ))

/-- Calendar month of an embedded date (dates are `monthIndex * 100 + day`). -/
def monthOf (d : Nat) : Nat := d / 100

/-- `filtered_df.set_index('last_survey_date').resample('M').size()`
(line 131): one bucket per calendar month from the earliest to the latest
`last_survey_date` present, each holding the number of records falling in
that month — 0 for months inside the span with no records, since `resample`
builds a contiguous fixed-frequency index over the observed span. -/
def monthly_assets (fd : List AssetRecord) : List (Nat × Nat) :=
  if fd.isEmpty then []
  else
    let months := fd.map (fun r => monthOf r.last_survey_date)
    let lo := listMin months
    let hi := listMax months
    (List.range (hi + 1 - lo)).map (fun i =>
      (lo + i, fd.countP (fun r => monthOf r.last_survey_date == lo + i)))

/-- Lines 34-37 of the script: the district selector offers `['All']` and,
only when a state is selected, additionally the sorted distinct districts of
the records of that state. -/
def district_list (df : List AssetRecord) (selected_state : String) : List String :=
  if selected_state = "All" then ["All"]
  else "All" :: sortStr (uniqueKeys
    ((df.filter (fun r => r.state == selected_state)).map (fun r => r.district)))

theorem sum_map_add_nat {α : Type} (l : List α) (f g : α → Nat) :
    (l.map (fun a => f a + g a)).sum = (l.map f).sum + (l.map g).sum := by
  induction l with
  | nil => rfl
  | cons a l ih => simp only [List.map_cons, List.sum_cons, ih]; omega

theorem sum_map_ite_zero {keys : List String} (x : String) (hx : x ∉ keys) :
    (keys.map (fun k => if x = k then 1 else 0)).sum = 0 := by
  induction keys with
  | nil => rfl
  | cons k ks ih =>
    have hxk : ¬(x = k) := fun h => hx (h ▸ List.mem_cons_self k ks)
    have hxs : x ∉ ks := fun h => hx (List.mem_cons_of_mem k h)
    simp [hxk, ih hxs]

theorem sum_map_ite_one {keys : List String} (x : String) (hnd : keys.Nodup)
    (hx : x ∈ keys) : (keys.map (fun k => if x = k then 1 else 0)).sum = 1 := by
  induction keys with
  | nil => cases hx
  | cons k ks ih =>
    rcases List.nodup_cons.mp hnd with ⟨hk, hks⟩
    by_cases hxk : x = k
    · subst hxk
      simp [sum_map_ite_zero x hk]
    · have hxs : x ∈ ks := by
        rcases List.mem_cons.mp hx with h | h
        · exact absurd h hxk
        · exact h
      simp [hxk, ih hks hxs]

/-- A list of disjoint-category counts over a covering key set adds up to the
length of the counted list. -/
theorem sum_countP_partition {α : Type} (l : List α) (f : α → String) (keys : List String)
    (hnd : keys.Nodup) (hcov : ∀ a ∈ l, f a ∈ keys) :
    (keys.map (fun k => l.countP (fun a => f a == k))).sum = l.length := by
  induction l with
  | nil => simp
  | cons a l ih =>
    have hfa : f a ∈ keys := hcov a (List.mem_cons_self a l)
    have ihl := ih (fun b hb => hcov b (List.mem_cons_of_mem a hb))
    simp only [List.countP_cons, beq_iff_eq]
    rw [sum_map_add_nat keys (fun k => l.countP (fun a => f a == k))
      (fun k => if f a = k then 1 else 0), ihl, sum_map_ite_one (f a) hnd hfa,
      List.length_cons]

theorem value_counts_snd_sum (l : List String) :
    ((value_counts l).map Prod.snd).sum = l.length := by
  have hperm : ((value_counts l).map Prod.snd).Perm
      (((uniqueKeys l).map (fun k => (k, l.count k))).map Prod.snd) :=
    (sortByCountDesc_perm ((uniqueKeys l).map (fun k => (k, l.count k)))).map Prod.snd
  rw [hperm.sum_eq, List.map_map]
  have h2 : (uniqueKeys l).map (Prod.snd ∘ fun k => (k, l.count k))
      = (uniqueKeys l).map (fun k => l.countP (fun x => x == k)) :=
    List.map_congr_left (fun k _ => List.count_eq_countP k l)
  rw [h2]
  exact sum_countP_partition l (fun x => x) (uniqueKeys l) (nodup_uniqueKeys l)
    (fun a ha => (mem_uniqueKeys l a).mpr ha)

theorem group_counts_snd_sum (fd : List AssetRecord) (f : AssetRecord → String) :
    ((group_counts fd f).map Prod.snd).sum = fd.length := by
  rw [group_counts, value_counts_snd_sum, List.length_map]

theorem ct_cell_countP (fd : List AssetRecord) (s t : String) :
    fd.countP (fun r => r.state == s && r.asset_type == t)
      = (fd.filter (fun r => r.state == s)).countP (fun r => r.asset_type == t) := by
  rw [List.countP_filter]
  exact List.countP_congr (fun r _ => by rw [Bool.and_comm])

theorem ct_row_sum (fd : List AssetRecord) (s : String) :
    ((ct_cols fd).map
      (fun t => fd.countP (fun r => r.state == s && r.asset_type == t))).sum
      = fd.countP (fun r => r.state == s) := by
  rw [List.map_congr_left (fun t _ => ct_cell_countP fd s t),
    List.countP_eq_length_filter]
  exact sum_countP_partition (fd.filter (fun r => r.state == s))
    (fun r => r.asset_type) (ct_cols fd) (nodup_sortStr (nodup_uniqueKeys _))
    (fun a ha => mem_sortStr.mpr ((mem_uniqueKeys _ _).mpr
      (List.mem_map_of_mem _ (List.mem_of_mem_filter ha))))

/-- C5: the counts of `group_counts` over `asset_type` add up to the record
count, the cells of the state-by-asset-type cross-tab also add up to the
record count over the whole matrix, and every (observed state, observed
asset type) combination has a cell holding its (possibly zero) record count
rather than a missing entry. -/
theorem C5_counts_sum_to_total :
    (∀ fd : List AssetRecord,
        ((group_counts fd (fun r => r.asset_type)).map Prod.snd).sum = fd.length) ∧
    (∀ fd : List AssetRecord,
        ((cross_tab fd).map (fun row => (row.2.map Prod.snd).sum)).sum = fd.length) ∧
    (∀ fd : List AssetRecord, ∀ s ∈ ct_rows fd, ∀ t ∈ ct_cols fd,
        ∃ row ∈ cross_tab fd, row.1 = s ∧
          (t, fd.countP (fun r => r.state == s && r.asset_type == t)) ∈ row.2) := by
  refine ⟨fun fd => group_counts_snd_sum fd _, ?_, ?_⟩
  · intro fd
    have h : (cross_tab fd).map (fun row => (row.2.map Prod.snd).sum)
        = (ct_rows fd).map (fun s => fd.countP (fun r => r.state == s)) := by
      rw [cross_tab, List.map_map]
      refine List.map_congr_left (fun s _ => ?_)
      show (((ct_cols fd).map (fun t =>
        (t, fd.countP (fun r => r.state == s && r.asset_type == t)))).map Prod.snd).sum
          = fd.countP (fun r => r.state == s)
      rw [List.map_map]
      exact ct_row_sum fd s
    rw [h]
    exact sum_countP_partition fd (fun r => r.state) (ct_rows fd)
      (nodup_sortStr (nodup_uniqueKeys _))
      (fun a ha => mem_sortStr.mpr ((mem_uniqueKeys _ _).mpr (List.mem_map_of_mem _ ha)))
  · intro fd s hs t ht
    refine ⟨(s, (ct_cols fd).map (fun t =>
      (t, fd.countP (fun r => r.state == s && r.asset_type == t)))), ?_, rfl, ?_⟩
    · exact List.mem_map_of_mem _ hs
    · exact List.mem_map_of_mem _ ht

/-- Witness for C5 at the scenario dataset: counts add up to 3 and the
(state "B", type "pond") cell exists with count 0. -/
theorem C5_counts_sum_to_total_witness :
    ((group_counts specDataset (fun r => r.asset_type)).map Prod.snd).sum =
      specDataset.length ∧
    ∃ row ∈ cross_tab specDataset, row.1 = "B" ∧
      (("pond" : String),
        specDataset.countP (fun r => r.state == "B" && r.asset_type == "pond")) ∈ row.2 :=
  ⟨C5_counts_sum_to_total.1 specDataset,
   C5_counts_sum_to_total.2.2 specDataset "B" (by decide) "pond" (by decide)⟩

/-- C4: missing numeric values are never fatal: the area KPI sums with
missing `area_ha` counted as 0, the NDVI and NDWI KPIs are the arithmetic
mean of the non-missing values only, and when a field has no non-missing
value at all (in particular on the empty filtered dataset) the mean is the
`none` sentinel — distinguishable from a true `some 0` mean — rather than
zero or an error. -/
theorem C4_missing_values_never_fatal :
    (∀ fd : List AssetRecord,
        sum_area fd = (fd.map (fun r => r.area_ha.getD 0)).sum) ∧
    (∀ fd : List AssetRecord, (avg_ndvi fd = none ↔ ∀ r ∈ fd, r.ndvi = none)) ∧
    (∀ fd : List AssetRecord, (avg_ndwi fd = none ↔ ∀ r ∈ fd, r.ndwi = none)) ∧
    (∀ fd : List AssetRecord, fd.filterMap (fun r => r.ndvi) ≠ [] →
        avg_ndvi fd = some ((fd.filterMap (fun r => r.ndvi)).sum /
          ((fd.filterMap (fun r => r.ndvi)).length : ℚ))) := by
  refine ⟨?_, ?_, ?_, ?_⟩
  · intro fd
    simp only [sum_area]
    induction fd with
    | nil => rfl
    | cons r l ih =>
      cases h : r.area_ha <;>
        simp [List.filterMap_cons, h, ih, Option.getD_none, Option.getD_some]
  · intro fd
    rw [avg_ndvi]
    rcases h : fd.filterMap (fun r => r.ndvi) with _ | ⟨v, vs⟩ <;>
      simp [← @List.filterMap_eq_nil_iff AssetRecord ℚ (fun r => r.ndvi) fd, h]
  · intro fd
    rw [avg_ndwi]
    rcases h : fd.filterMap (fun r => r.ndwi) with _ | ⟨v, vs⟩ <;>
      simp [← @List.filterMap_eq_nil_iff AssetRecord ℚ (fun r => r.ndwi) fd, h]
  · intro fd hne
    rw [avg_ndvi]
    simp [List.length_eq_zero.not.mpr hne]

/-- Witness for C4 on the specification's scenario data: total area of the
three records is 6, the all-missing NDVI singleton has an undefined mean, and
the two state-A records have mean NDVI 11/20 = 0.55. -/
theorem C4_missing_values_never_fatal_witness :
    sum_area specDataset = (specDataset.map (fun r => r.area_ha.getD 0)).sum ∧
    avg_ndvi [wellB] = none ∧
    avg_ndvi [wellA, pondA] = some (11/20) := by
  refine ⟨C4_missing_values_never_fatal.1 specDataset, ?_, ?_⟩
  · exact (C4_missing_values_never_fatal.2.1 [wellB]).mpr (by decide)
  · have h := C4_missing_values_never_fatal.2.2.2 [wellA, pondA] (by decide)
    rw [h]
    norm_num [wellA, pondA, List.filterMap_cons]

/-- C6: the date-range criterion is inclusive at both bounds, is applied only
when both bounds are present (any other shape of the range imposes no
constraint), and on the specification's three-record scenario the range
[2023-01-01, 2023-01-31] retains exactly the Jan 15 and Jan 20 records,
excluding the Feb 10 one. -/
theorem C6_date_range_inclusive_both_bounds :
    (∀ (df : List AssetRecord) (c : FilterCriteria) (s e : Nat) (r : AssetRecord),
        c.date_range = [s, e] → r ∈ df →
        matchesCriteria { c with date_range := [] } r = true →
        s ≤ r.last_survey_date → r.last_survey_date ≤ e →
        r ∈ filtered_df df c) ∧
    (∀ (df : List AssetRecord) (c : FilterCriteria) (s e : Nat) (r : AssetRecord),
        c.date_range = [s, e] → r ∈ filtered_df df c →
        s ≤ r.last_survey_date ∧ r.last_survey_date ≤ e) ∧
    (∀ (df : List AssetRecord) (c : FilterCriteria),
        c.date_range.length ≠ 2 →
        filtered_df df c = filtered_df df { c with date_range := [] }) ∧
    filtered_df specDataset ⟨"All", "All", ["All"], ["All"], [1, 31]⟩ = [wellA, wellB] := by
  refine ⟨?_, ?_, ?_, rfl⟩
  · intro df c s e r hdr hr hmatch hs he
    rcases c with ⟨ss, sd, sa, st, dr⟩
    simp only at hdr
    subst hdr
    rw [filtered_df_eq_filter, List.mem_filter]
    refine ⟨hr, ?_⟩
    simp only [matchesCriteria] at hmatch ⊢
    simp_all
  · intro df c s e r hdr hmem
    rcases c with ⟨ss, sd, sa, st, dr⟩
    simp only at hdr
    subst hdr
    rw [filtered_df_eq_filter, List.mem_filter] at hmem
    have h := hmem.2
    simp only [matchesCriteria] at h
    simp only [Bool.and_eq_true, Bool.or_eq_true, decide_eq_true_eq] at h
    exact ⟨h.2.2.2.2.1, h.2.2.2.2.2⟩
  · intro df c hlen
    rcases c with ⟨ss, sd, sa, st, dr⟩
    rw [filtered_df_eq_filter, filtered_df_eq_filter]
    refine List.filter_congr (fun r _ => ?_)
    rcases dr with _ | ⟨s, _ | ⟨e, _ | ⟨x, rest⟩⟩⟩ <;>
      first
      | rfl
      | exact absurd rfl hlen

/-- Witness for C6: the Jan 15 record sits on the start bound of the range
[2023-01-15, 2023-01-31] and is retained; the Jan 20 record of the scenario
range satisfies both bounds; a one-element range imposes no constraint. -/
theorem C6_date_range_inclusive_both_bounds_witness :
    wellA ∈ filtered_df specDataset ⟨"All", "All", ["All"], ["All"], [15, 31]⟩ ∧
    (1 ≤ wellB.last_survey_date ∧ wellB.last_survey_date ≤ 31) ∧
    filtered_df specDataset ⟨"All", "All", ["All"], ["All"], [1]⟩ =
      filtered_df specDataset ⟨"All", "All", ["All"], ["All"], []⟩ := by
  refine ⟨?_, ?_, ?_⟩
  · exact C6_date_range_inclusive_both_bounds.1 specDataset
      ⟨"All", "All", ["All"], ["All"], [15, 31]⟩ 15 31 wellA rfl
      (by simp [specDataset]) rfl (by decide) (by decide)
  · refine C6_date_range_inclusive_both_bounds.2.1 specDataset
      ⟨"All", "All", ["All"], ["All"], [1, 31]⟩ 1 31 wellB rfl ?_
    rw [C6_date_range_inclusive_both_bounds.2.2.2]
    simp
  · exact C6_date_range_inclusive_both_bounds.2.2.1 specDataset
      ⟨"All", "All", ["All"], ["All"], [1]⟩ (by decide)

/-- A dataset whose asset types are tied in count and first appear in the
order "b", "a", "c": the counting hash table lists them in that order, so the
count-descending sort cannot return them sorted by value. -/
def tieDataset : List AssetRecord :=
  [⟨"t1", "S1", "D1", "b", "ok", 10, none, none, none⟩,
   ⟨"t2", "S1", "D1", "a", "ok", 11, none, none, none⟩,
   ⟨"t3", "S1", "D1", "c", "ok", 12, none, none, none⟩]

/-- C7 counterexample: on `tieDataset` the asset-type counts are the three
tied pairs ("b",1), ("a",1), ("c",1) in first-appearance order, which is not
sorted by value ascending within the tie, refuting the claimed tie-break. -/
theorem C7_counterexample_ties_not_value_sorted :
    ¬ (group_counts tieDataset (fun r => r.asset_type)).Pairwise
        (fun p q => q.2 < p.2 ∨ (p.2 = q.2 ∧ strLe p.1 q.1 = true)) := by
  decide

/-- C7 (amended): `group_counts` returns its (value, count) pairs sorted by
count descending — tied counts keep the order in which the values first
appear in the dataset (restricting the output to any one count value gives
the first-appearance key list restricted to that count), not value-ascending
order — its pairs are exactly the distinct observed values with their
multiplicities, and `top_n_by_group` is exactly the truncation of that
sequence to its first n elements. -/
theorem C7_group_counts_sorted_and_truncated :
    (∀ (fd : List AssetRecord) (f : AssetRecord → String),
        (group_counts fd f).Pairwise (fun p q => q.2 ≤ p.2)) ∧
    (∀ (fd : List AssetRecord) (f : AssetRecord → String) (c : Nat),
        (group_counts fd f).filter (fun p => p.2 == c)
          = ((uniqueKeys (fd.map f)).map (fun k => (k, (fd.map f).count k))).filter
              (fun p => p.2 == c)) ∧
    (∀ (fd : List AssetRecord) (f : AssetRecord → String) (n : Nat),
        top_n_by_group fd f n = (group_counts fd f).take n) ∧
    (∀ (fd : List AssetRecord) (f : AssetRecord → String) (k : String) (c : Nat),
        ((k, c) ∈ group_counts fd f ↔ k ∈ fd.map f ∧ c = (fd.map f).count k)) := by
  refine ⟨fun fd f => pairwise_sortByCountDesc _,
    fun fd f c => filter_sortByCountDesc c _, fun fd f n => rfl, ?_⟩
  intro fd f k c
  rw [group_counts, value_counts, (sortByCountDesc_perm _).mem_iff, List.mem_map]
  constructor
  · rintro ⟨k', hk', hkc⟩
    rcases Prod.mk.injEq .. ▸ hkc with ⟨h1, h2⟩
    subst h1
    exact ⟨(mem_uniqueKeys _ _).mp hk', h2.symm⟩
  · rintro ⟨hk, rfl⟩
    exact ⟨k, (mem_uniqueKeys _ _).mpr hk, rfl⟩

/-- Witness for C7 at the tie dataset: the count sequence is sorted by count
descending, the tied pairs keep their first-appearance order, and ("a", 1) is
one of the pairs. -/
theorem C7_group_counts_sorted_and_truncated_witness :
    (group_counts tieDataset (fun r => r.asset_type)).Pairwise (fun p q => q.2 ≤ p.2) ∧
    (group_counts tieDataset (fun r => r.asset_type)).filter (fun p => p.2 == 1)
      = ((uniqueKeys (tieDataset.map (fun r => r.asset_type))).map
          (fun k => (k, (tieDataset.map (fun r => r.asset_type)).count k))).filter
          (fun p => p.2 == 1) ∧
    (("a", 1) ∈ group_counts tieDataset (fun r => r.asset_type) ↔
      "a" ∈ tieDataset.map (fun r => r.asset_type) ∧
        1 = (tieDataset.map (fun r => r.asset_type)).count "a") :=
  ⟨C7_group_counts_sorted_and_truncated.1 tieDataset (fun r => r.asset_type),
   C7_group_counts_sorted_and_truncated.2.1 tieDataset (fun r => r.asset_type) 1,
   C7_group_counts_sorted_and_truncated.2.2.2 tieDataset (fun r => r.asset_type) "a" 1⟩

/-- A dataset with one record in January and one in March 2023 (month indices
0 and 2) and nothing in February: the month in between has zero assets. -/
def gapDataset : List AssetRecord :=
  [⟨"g1", "S1", "D1", "well", "ok", 15, none, none, none⟩,
   ⟨"g2", "S1", "D1", "well", "ok", 215, none, none, none⟩]

/-- C8 counterexample: `resample('M').size()` builds a contiguous monthly
index over the observed span, so on `gapDataset` the empty middle month
appears as a zero-count bucket — months with zero assets are not dropped
from the output. -/
theorem C8_counterexample_zero_month_not_dropped :
    ¬ (∀ p ∈ monthly_assets gapDataset, p.2 ≠ 0) := by
  decide

theorem listMin_le_listMax {l : List Nat} (h : l ≠ []) : listMin l ≤ listMax l := by
  rcases l with _ | ⟨x, xs⟩
  · exact absurd rfl h
  · exact le_trans (listMin_le (List.mem_cons_self x xs))
      (le_listMax (List.mem_cons_self x xs))

/-- C8 (amended): the monthly buckets are sorted chronologically and cover
exactly the span from the earliest to the latest month with a record; every
month of that span is present, the empty ones with count 0 rather than being
dropped. -/
theorem C8_monthly_buckets_contiguous :
    (∀ fd : List AssetRecord,
        (monthly_assets fd).Pairwise (fun p q => p.1 < q.1)) ∧
    (∀ fd : List AssetRecord, fd ≠ [] → ∀ m c : Nat,
        ((m, c) ∈ monthly_assets fd ↔
          listMin (fd.map (fun r => monthOf r.last_survey_date)) ≤ m ∧
          m ≤ listMax (fd.map (fun r => monthOf r.last_survey_date)) ∧
          c = fd.countP (fun r => monthOf r.last_survey_date == m))) := by
  constructor
  · intro fd
    rw [monthly_assets]
    by_cases hfd : fd.isEmpty
    · rw [if_pos hfd]
      exact List.Pairwise.nil
    · rw [if_neg hfd]
      refine (List.pairwise_map).mpr ?_
      exact List.Pairwise.imp (fun h => by omega) (List.pairwise_lt_range _)
  · intro fd hfd m c
    have hne : fd.map (fun r => monthOf r.last_survey_date) ≠ [] := by
      simp [hfd]
    rw [monthly_assets, if_neg (by simp [hfd])]
    rw [List.mem_map]
    constructor
    · rintro ⟨i, hi, hic⟩
      rw [List.mem_range] at hi
      rcases Prod.mk.injEq .. ▸ hic with ⟨h1, h2⟩
      subst h1
      have hlohi := listMin_le_listMax hne
      exact ⟨by omega, by omega, h2.symm⟩
    · rintro ⟨h1, h2, h3⟩
      refine ⟨m - listMin (fd.map (fun r => monthOf r.last_survey_date)), ?_, ?_⟩
      · rw [List.mem_range]
        omega
      · have : listMin (fd.map (fun r => monthOf r.last_survey_date)) +
            (m - listMin (fd.map (fun r => monthOf r.last_survey_date))) = m := by omega
        rw [this, h3]

/-- Witness for C8: on the gap dataset the buckets are chronological and the
empty February bucket (month index 1, count 0) is present. -/
theorem C8_monthly_buckets_contiguous_witness :
    (monthly_assets gapDataset).Pairwise (fun p q => p.1 < q.1) ∧
    ((1 : Nat), (0 : Nat)) ∈ monthly_assets gapDataset :=
  ⟨C8_monthly_buckets_contiguous.1 gapDataset,
   (C8_monthly_buckets_contiguous.2 gapDataset (by decide) 1 0).mpr
     ⟨by decide, by decide, by decide⟩⟩

/-- C9: the selectable districts are a derived view of the selected state:
with a state selected the list offers (besides the sentinel) exactly the
districts of records of that state, and with the state unconstrained it
resets to the sentinel alone, so the only selectable district is `"All"` and
the district criterion of the filter pipeline cannot constrain anything. -/
theorem C9_district_list_derived_from_state :
    (∀ df : List AssetRecord, district_list df "All" = ["All"]) ∧
    (∀ (df : List AssetRecord) (sel : String), sel ≠ "All" → ∀ v : String,
        (v ∈ district_list df sel ↔
          v = "All" ∨ ∃ r ∈ df, r.state = sel ∧ r.district = v)) ∧
    (∀ (df df' : List AssetRecord) (c : FilterCriteria),
        c.selected_district ∈ district_list df "All" →
        filtered_df df' c = filtered_df df' { c with selected_district := "All" }) := by
  refine ⟨fun df => by rw [district_list, if_pos rfl], ?_, ?_⟩
  · intro df sel hsel v
    rw [district_list, if_neg hsel, List.mem_cons, mem_sortStr, mem_uniqueKeys,
      List.mem_map]
    constructor
    · rintro (h | ⟨r, hr, hrd⟩)
      · exact Or.inl h
      · rcases List.mem_filter.mp hr with ⟨hrdf, hrs⟩
        exact Or.inr ⟨r, hrdf, beq_iff_eq.mp hrs, hrd⟩
    · rintro (h | ⟨r, hr, hrs, hrd⟩)
      · exact Or.inl h
      · exact Or.inr ⟨r, List.mem_filter.mpr ⟨hr, beq_iff_eq.mpr hrs⟩, hrd⟩
  · intro df df' c hmem
    rw [district_list, if_pos rfl, List.mem_singleton] at hmem
    rcases c with ⟨ss, sd, sa, st, dr⟩
    simp only at hmem
    subst hmem
    rfl

/-- Witness for C9: over the scenario dataset, "X" is offered for state "A"
because the well record has it; selecting the sentinel district leaves the
filter unchanged. -/
theorem C9_district_list_derived_from_state_witness :
    "X" ∈ district_list specDataset "A" ∧
    filtered_df specDataset ⟨"B", "All", ["All"], ["All"], []⟩ =
      filtered_df specDataset ⟨"B", "All", ["All"], ["All"], []⟩ :=
  ⟨(C9_district_list_derived_from_state.2.1 specDataset "A" (by decide) "X").mpr
      (Or.inr ⟨wellA, by simp [specDataset], rfl, rfl⟩),
   C9_district_list_derived_from_state.2.2 specDataset specDataset
     ⟨"B", "All", ["All"], ["All"], []⟩ (by decide)⟩

/-- C10: the filtered dataset is an order-preserving subsequence of the input
dataset: every output record comes from the input, in the same relative
order, with no duplication or synthesis. -/
theorem C10_filtered_is_sublist (df : List AssetRecord) (c : FilterCriteria) :
    (filtered_df df c).Sublist df := by
  rw [filtered_df_eq_filter]
  exact List.filter_sublist df
